import Mathlib

/-!
Shallow embedding of `src/exercises/conversions/from_str.rs`: a parser that
turns a string of the form `"<name>,<age>"` into a `Person` record or a
classified `PersonStrParseError`.  The parser proper is `Person.from_str`
(`FromStr for Person`, lines 48–73 of the source).  Supporting std-library
behaviour used by the source — `str::split(",")`, `str::parse::<usize>()`
(i.e. `usize::from_str_radix` in base 10) and decimal rendering of an
unsigned integer — is embedded as well, since the claims quantify over it.
`usize` is modelled as the 64-bit unsigned range.
-/

/-- Embeds Rust's `std::num::IntErrorKind`, the classification carried by the
`std::num::ParseIntError` value wrapped in `PersonStrParseError::ParseNumError`. -/
inductive ParseIntError where
  | Empty
  | InvalidDigit
  | PosOverflow
  | NegOverflow
deriving DecidableEq, Repr

/-- Largest value of `usize` on a 64-bit platform: `2 ^ 64 - 1`. -/
def USIZE_MAX : Nat := 2 ^ 64 - 1

/-- Embeds `char::to_digit(10)` restricted to base 10: a decimal digit's value,
or `none` for any other character. -/
def digitVal (c : Char) : Option Nat :=
  if '0' ≤ c ∧ c ≤ '9' then some (c.toNat - 48) else none

/-- Embeds the digit-accumulation loop of Rust's `usize::from_str_radix` in
base 10: consume characters left to right, multiplying the accumulator by 10
and adding each digit, failing with `InvalidDigit` on a non-digit and with
`PosOverflow` as soon as the accumulator would exceed `USIZE_MAX`. -/
def parseDigits : List Char → Nat → Except ParseIntError Nat
  | [], acc => .ok acc
  | c :: cs, acc =>
    match digitVal c with
    | none => .error .InvalidDigit
    | some d =>
      if acc * 10 + d > USIZE_MAX then .error .PosOverflow
      else parseDigits cs (acc * 10 + d)

/-- Embeds Rust's `usize::from_str` (base 10) on the character list of the
input: empty input fails with `Empty`; a lone `'+'` sign fails with
`InvalidDigit`; a leading `'+'` is stripped; everything else (including a
leading `'-'`, which is not a digit for an unsigned type) goes through
`parseDigits`. -/
def parseUsizeCore : List Char → Except ParseIntError Nat
  | [] => .error .Empty
  | c :: rest =>
    if c = '+' then
      if rest = [] then .error .InvalidDigit else parseDigits rest 0
    else parseDigits (c :: rest) 0

/-- Embeds `str::parse::<usize>()` as used at line 61 of the source. -/
def parseUsize (s : String) : Except ParseIntError Nat :=
  parseUsizeCore s.data

/-- The character for the decimal digit `n < 10` (`'0'` + `n`). -/
def digitChar (n : Nat) : Char := Char.ofNat (48 + n)

/-- Fuel-indexed decimal rendering of a natural number, most significant digit
first.  The fuel only drives termination; `toDecDigits` supplies enough. -/
def toDecDigitsAux : Nat → Nat → List Char
  | 0, _ => []
  | fuel + 1, n =>
    if n < 10 then [digitChar n]
    else toDecDigitsAux fuel (n / 10) ++ [digitChar (n % 10)]

/-- Decimal digit string of a natural number, most significant digit first. -/
def toDecDigits (n : Nat) : List Char := toDecDigitsAux (n + 1) n

/-- Embeds the decimal rendering of a `usize` (Rust's `Display`, as produced by
`age_as_text` in the spec): plain decimal digits, no sign, no leading zeros. -/
def natToString (n : Nat) : String := ⟨toDecDigits n⟩

/-- Embeds `struct Person` (source lines 9–13): `name: String`, `age: usize`. -/
structure Person where
  name : String
  age : Nat
deriving DecidableEq, Repr

/-- Embeds `enum PersonStrParseError` (source lines 25–30).  The spec calls
these kinds `EmptyInput`, `WrongFieldCount` and `InvalidAge` respectively;
`ParseNumError` carries the wrapped `ParseIntError`. -/
inductive PersonStrParseError where
  | EmptyString
  | InsufficientParams
  | ParseNumError (e : ParseIntError)
deriving DecidableEq, Repr

/-- Embeds `impl fmt::Display for PersonStrParseError` (source lines 32–40):
the human-readable message written for each error kind. -/
def PersonStrParseError.display : PersonStrParseError → String
  | .EmptyString => "Empty input string"
  | .InsufficientParams => "Should exist 2 params"
  | .ParseNumError _ => "Oh no"

/-- A `&dyn Error` trait object as far as the claims need it: either the
`PersonStrParseError` itself or the wrapped `ParseIntError`. -/
inductive ErrorObj where
  | person (e : PersonStrParseError)
  | parseInt (e : ParseIntError)
deriving DecidableEq, Repr

/-- Embeds `impl error::Error for PersonStrParseError` (source lines 42–46):
`source()` returns `Some(self)` — the error itself, never the wrapped
`ParseIntError`. -/
def PersonStrParseError.source (e : PersonStrParseError) : Option ErrorObj :=
  some (ErrorObj.person e)

/-- Worker for `splitComma`: `acc` holds the current field's characters in
reverse.  A comma ends the current field; the end of input emits the final
(possibly empty) field. -/
def splitCommaAux : List Char → List Char → List String
  | [], acc => [⟨acc.reverse⟩]
  | c :: cs, acc =>
    if c = ',' then ⟨acc.reverse⟩ :: splitCommaAux cs [] else splitCommaAux cs (c :: acc)

/-- Embeds `s.split(",").collect::<Vec<&str>>()` (source line 54): split on
every comma, keeping empty fields, so `""` gives `[""]` and `","` gives
`["", ""]`. -/
def splitComma (s : String) : List String := splitCommaAux s.data []

/-- Embeds `<Person as FromStr>::from_str` (source lines 50–72): empty input
fails with `EmptyString`; a field count other than 2 fails with
`InsufficientParams`; an empty first field fails with `EmptyString`; a second
field that fails `usize` parsing fails with `ParseNumError` wrapping the
cause; otherwise the `Person` is built from the two fields. -/
def Person.from_str (s : String) : Except PersonStrParseError Person :=
  if s.length = 0 then .error .EmptyString
  else
    let params := splitComma s
    if params.length ≠ 2 then .error .InsufficientParams
    else
      if (params.getD 0 "").length = 0 then .error .EmptyString
      else
        match parseUsize (params.getD 1 "") with
        | .error e => .error (.ParseNumError e)
        | .ok age => .ok { name := params.getD 0 "", age := age }

/-- `Person.from_str` with the two vector indexings (`params[0]`, `params[1]`,
source lines 58–66) made fallible: `none` models the panic a Rust
out-of-bounds index would raise, so `= some _` states panic-freedom. -/
def from_strChecked (s : String) : Option (Except PersonStrParseError Person) :=
  if s.length = 0 then some (.error .EmptyString)
  else
    let params := splitComma s
    if params.length ≠ 2 then some (.error .InsufficientParams)
    else
      match params[0]?, params[1]? with
      | some name, some ageStr =>
        if name.length = 0 then some (.error .EmptyString)
        else
          match parseUsize ageStr with
          | .error e => some (.error (.ParseNumError e))
          | .ok age => some (.ok { name := name, age := age })
      | _, _ => none

deriving instance DecidableEq for Except

/-! ### Helper lemmas shared by the claim theorems -/

/-- A string of length 0 is the empty string. -/
lemma string_eq_empty (s : String) (h : s.length = 0) : s = "" := by
  cases s with
  | mk data =>
    rw [String.length_mk, List.length_eq_zero] at h
    rw [h]

/-- A list of length 2 is a two-element list. -/
lemma exists_pair_of_length_two {α : Type} : ∀ (l : List α), l.length = 2 → ∃ a b, l = [a, b]
  | [a, b], _ => ⟨a, b, rfl⟩

/-- Splitting the empty string yields one empty field, never two fields. -/
lemma splitComma_empty : splitComma "" = [""] := rfl

/-- A string whose split has two fields is non-empty. -/
lemma length_ne_zero_of_split_pair (s a b : String) (h : splitComma s = [a, b]) :
    ¬ s.length = 0 := by
  intro h0
  rw [string_eq_empty s h0, splitComma_empty] at h
  simp at h

/-- Reduction of `Person.from_str` on an input whose split has exactly two
fields: the remaining checks are the empty-name check and the age parse. -/
lemma from_str_pair (s a b : String) (h : splitComma s = [a, b]) :
    Person.from_str s =
      if a.length = 0 then .error .EmptyString
      else
        match parseUsize b with
        | .error e => .error (.ParseNumError e)
        | .ok age => .ok { name := a, age := age } := by
  have hs := length_ne_zero_of_split_pair s a b h
  simp [Person.from_str, hs, h]

/-- Reduction of `Person.from_str` on a non-empty input whose split does not
have exactly two fields. -/
lemma from_str_not_pair (s : String) (hs : ¬ s.length = 0)
    (h : (splitComma s).length ≠ 2) : Person.from_str s = .error .InsufficientParams := by
  simp [Person.from_str, hs, h]

/-- Reduction of `Person.from_str` on a length-0 input: the outermost branch
fires, before any splitting. -/
lemma from_str_empty_aux (s : String) (h : s.length = 0) :
    Person.from_str s = .error .EmptyString := by
  unfold Person.from_str
  rw [if_pos h]

/-- `parseDigits` never returns a value above `USIZE_MAX` when the accumulator
starts within range: the overflow check rejects first. -/
lemma parseDigits_le : ∀ (cs : List Char) (acc r : Nat),
    acc ≤ USIZE_MAX → parseDigits cs acc = .ok r → r ≤ USIZE_MAX := by
  intro cs
  induction cs with
  | nil =>
    intro acc r h heq
    simp [parseDigits] at heq
    omega
  | cons c cs ih =>
    intro acc r h heq
    simp only [parseDigits] at heq
    split at heq
    · cases heq
    · split at heq
      · cases heq
      · rename_i hov
        exact ih _ r (Nat.le_of_not_lt hov) heq

/-- Any value returned by `parseUsize` fits in the 64-bit `usize` range. -/
lemma parseUsize_le (s : String) (n : Nat) (h : parseUsize s = .ok n) : n ≤ USIZE_MAX := by
  unfold parseUsize at h
  cases hd : s.data with
  | nil => rw [hd] at h; cases h
  | cons c rest =>
    rw [hd] at h
    simp only [parseUsizeCore] at h
    by_cases hc : c = '+'
    · rw [if_pos hc] at h
      by_cases hr : rest = []
      · rw [if_pos hr] at h; cases h
      · rw [if_neg hr] at h
        exact parseDigits_le rest 0 n (Nat.zero_le _) h
    · rw [if_neg hc] at h
      exact parseDigits_le (c :: rest) 0 n (Nat.zero_le _) h

example : Person.from_str "Mark,20" = .ok { name := "Mark", age := 20 } := by decide
example : Person.from_str "" = .error .EmptyString := by decide
example : Person.from_str "John" = .error .InsufficientParams := by decide
example : Person.from_str ",one" = .error .EmptyString := by decide
example : Person.from_str "John,twenty" = .error (.ParseNumError .InvalidDigit) := by decide
example : Person.from_str "John," = .error (.ParseNumError .Empty) := by decide
example : Person.from_str "John,32," = .error .InsufficientParams := by decide
example : parseUsize "+20" = .ok 20 := by decide
example : parseUsize "-1" = .error .InvalidDigit := by decide
example : parseUsize "+" = .error .InvalidDigit := by decide
example : parseUsize "18446744073709551615" = .ok USIZE_MAX := by decide
example : parseUsize "18446744073709551616" = .error .PosOverflow := by decide
example : natToString 120 = "120" := by decide

/-! ### Claim theorems -/

/-- Claim C2: whenever splitting the input on the comma yields exactly two
fields and the first field is empty, `from_str` fails with the `EmptyString`
kind (the spec's `EmptyInput`) regardless of the second field — the empty-name
check at source line 58 runs before the age parse at line 61. -/
theorem empty_name_gives_EmptyString (s b : String) (h : splitComma s = ["", b]) :
    Person.from_str s = .error .EmptyString := by
  rw [from_str_pair s "" b h]
  simp

/-- Witness for C2 at the spec's own example: `parse(",one")` fails with the
`EmptyString` kind, not `ParseNumError`. -/
theorem empty_name_gives_EmptyString_witness :
    Person.from_str ",one" = .error .EmptyString :=
  empty_name_gives_EmptyString ",one" "one" (by decide)

/-- Claim C4: on a two-field input with non-empty name whose second field
fails `usize` parsing, `from_str` fails with the `ParseNumError` kind (the
spec's `InvalidAge`), wrapping the numeric-parse failure. -/
theorem invalid_age_gives_ParseNumError (s a b : String) (e : ParseIntError)
    (h : splitComma s = [a, b]) (ha : a ≠ "") (he : parseUsize b = .error e) :
    Person.from_str s = .error (.ParseNumError e) := by
  rw [from_str_pair s a b h]
  have hlen : ¬ a.length = 0 := fun h0 => ha (string_eq_empty a h0)
  simp [hlen, he]

/-- Witness for C4 at the spec's examples: `parse("John,")` and
`parse("John,twenty")` fail with the `ParseNumError` kind. -/
theorem invalid_age_gives_ParseNumError_witness :
    Person.from_str "John," = .error (.ParseNumError .Empty) ∧
    Person.from_str "John,twenty" = .error (.ParseNumError .InvalidDigit) :=
  ⟨invalid_age_gives_ParseNumError "John," "John" "" .Empty (by decide) (by decide)
      (by decide),
    invalid_age_gives_ParseNumError "John,twenty" "John" "twenty" .InvalidDigit (by decide)
      (by decide) (by decide)⟩

/-- Claim C5: on a non-empty input whose split does not yield exactly two
fields, `from_str` fails with the `InsufficientParams` kind (the spec's
`WrongFieldCount`). -/
theorem wrong_field_count_gives_InsufficientParams (s : String) (hs : s ≠ "")
    (h : (splitComma s).length ≠ 2) : Person.from_str s = .error .InsufficientParams := by
  have h0 : ¬ s.length = 0 := fun h0 => hs (string_eq_empty s h0)
  exact from_str_not_pair s h0 h

/-- Witness for C5 at the spec's examples: `parse("John")` (one field),
`parse("John,32,")` and `parse("John,32,man")` (three fields) all fail with
the `InsufficientParams` kind. -/
theorem wrong_field_count_gives_InsufficientParams_witness :
    Person.from_str "John" = .error .InsufficientParams ∧
    Person.from_str "John,32," = .error .InsufficientParams ∧
    Person.from_str "John,32,man" = .error .InsufficientParams :=
  ⟨wrong_field_count_gives_InsufficientParams "John" (by decide) (by decide),
    wrong_field_count_gives_InsufficientParams "John,32," (by decide) (by decide),
    wrong_field_count_gives_InsufficientParams "John,32,man" (by decide) (by decide)⟩

/-- Claim C6: any length-0 input fails with the `EmptyString` kind (the
spec's `EmptyInput`); in the embedding, as at source lines 51–52, this test
is the outermost branch of `from_str`, taken before any splitting. -/
theorem empty_input_gives_EmptyString (s : String) (h : s.length = 0) :
    Person.from_str s = .error .EmptyString :=
  from_str_empty_aux s h

/-- Witness for C6: `parse("")` fails with the `EmptyString` kind. -/
theorem empty_input_gives_EmptyString_witness :
    Person.from_str "" = .error .EmptyString :=
  empty_input_gives_EmptyString "" (by decide)

/-- Claim C7: every `Person` produced by a successful `from_str` has a
non-empty name and an age within the 64-bit `usize` range — the empty-name
check and the overflow-checked `usize` parse establish the record invariant,
and `from_str` is the only producer of `Person` values in the source. -/
theorem parsed_person_invariant (s : String) (p : Person)
    (h : Person.from_str s = .ok p) : p.name ≠ "" ∧ p.age ≤ USIZE_MAX := by
  by_cases h0 : s.length = 0
  · rw [from_str_empty_aux s h0] at h
    cases h
  by_cases h2 : (splitComma s).length = 2
  · obtain ⟨a, b, hab⟩ := exists_pair_of_length_two (splitComma s) h2
    rw [from_str_pair s a b hab] at h
    by_cases ha : a.length = 0
    · rw [if_pos ha] at h; cases h
    · rw [if_neg ha] at h
      cases hu : parseUsize b with
      | error e => rw [hu] at h; cases h
      | ok age =>
        rw [hu] at h
        cases h
        exact ⟨fun hn => ha (by rw [show a = "" from hn, String.length_empty]),
          parseUsize_le b age hu⟩
  · rw [from_str_not_pair s h0 h2] at h
    cases h

/-- Witness for C7 at the demo input `"Mark,20"`. -/
theorem parsed_person_invariant_witness :
    ("Mark" : String) ≠ "" ∧ (20 : Nat) ≤ USIZE_MAX :=
  parsed_person_invariant "Mark,20" { name := "Mark", age := 20 } (by decide)

/-- Claim C3 evaluation (code bug): the `Error::source` implementation at
source lines 42–46 returns `Some(self)` — the `PersonStrParseError` itself —
and never the wrapped `ParseIntError`, so the cause accessor does not expose
the numeric-parse failure as the spec requires. -/
theorem source_returns_self_not_wrapped :
    (PersonStrParseError.ParseNumError ParseIntError.InvalidDigit).source
        = some (ErrorObj.person (.ParseNumError .InvalidDigit)) ∧
    ∀ e : ParseIntError,
      (PersonStrParseError.ParseNumError e).source ≠ some (ErrorObj.parseInt e) :=
  ⟨rfl, fun e h => by simp [PersonStrParseError.source] at h⟩

/-- Claim C8: the three error kinds render exactly as "Empty input string",
"Should exist 2 params" and "Oh no" (source lines 32–40). -/
theorem display_messages :
    PersonStrParseError.display .EmptyString = "Empty input string" ∧
    PersonStrParseError.display .InsufficientParams = "Should exist 2 params" ∧
    ∀ e : ParseIntError, PersonStrParseError.display (.ParseNumError e) = "Oh no" :=
  ⟨rfl, rfl, fun _ => rfl⟩

/-- Claim C9: parsing is deterministic — the embedding of `from_str` is a
pure function of the input, so two parses of the same input are equal, record
and error kind included. -/
theorem from_str_deterministic (s : String) (r₁ r₂ : Except PersonStrParseError Person)
    (h₁ : Person.from_str s = r₁) (h₂ : Person.from_str s = r₂) : r₁ = r₂ :=
  h₁.symm.trans h₂

/-- Witness for C9 at the input `"Mark,20"`. -/
theorem from_str_deterministic_witness :
    (Except.ok { name := "Mark", age := 20 } : Except PersonStrParseError Person)
      = Except.ok { name := "Mark", age := 20 } :=
  from_str_deterministic "Mark,20" (.ok { name := "Mark", age := 20 })
    (.ok { name := "Mark", age := 20 }) (by decide) (by decide)

/-- Claim C10: `from_str` is total and panic-free — the fallible-indexing
variant never hits an out-of-bounds index (`none`) and agrees with `from_str`
on every input, so every control path returns a `Person` or an error. -/
theorem from_str_total_no_panic (s : String) :
    from_strChecked s = some (Person.from_str s) := by
  by_cases h0 : s.length = 0
  · simp [from_strChecked, Person.from_str, h0]
  by_cases h2 : (splitComma s).length = 2
  · obtain ⟨a, b, hab⟩ := exists_pair_of_length_two (splitComma s) h2
    rw [from_str_pair s a b hab]
    simp only [from_strChecked, h0, hab, if_false]
    by_cases ha : a.length = 0
    · simp [ha]
    · simp only [ha, if_false]
      cases hu : parseUsize b <;> simp [hu, ha]
  · rw [from_str_not_pair s h0 h2]
    simp [from_strChecked, h0, h2]

/-! ### Decimal rendering and the round-trip claim -/

/-- The fuel of `toDecDigitsAux` is irrelevant once it exceeds the argument. -/
lemma toDecDigitsAux_fuel_irrel : ∀ (f₁ f₂ n : Nat), n < f₁ → n < f₂ →
    toDecDigitsAux f₁ n = toDecDigitsAux f₂ n := by
  intro f₁
  induction f₁ with
  | zero => intro f₂ n h₁ h₂; omega
  | succ f ih =>
    intro f₂ n h₁ h₂
    cases f₂ with
    | zero => omega
    | succ g =>
      simp only [toDecDigitsAux]
      by_cases hn : n < 10
      · simp [hn]
      · simp only [hn, if_false]
        rw [ih g (n / 10) (by omega) (by omega)]

/-- Unfolding `toDecDigits` on a single-digit number. -/
lemma toDecDigits_lt (n : Nat) (h : n < 10) : toDecDigits n = [digitChar n] := by
  simp [toDecDigits, toDecDigitsAux, h]

/-- Unfolding `toDecDigits` on a multi-digit number. -/
lemma toDecDigits_ge (n : Nat) (h : 10 ≤ n) :
    toDecDigits n = toDecDigits (n / 10) ++ [digitChar (n % 10)] := by
  unfold toDecDigits
  simp only [toDecDigitsAux]
  rw [if_neg (by omega)]
  congr 1
  exact toDecDigitsAux_fuel_irrel n (n / 10 + 1) (n / 10) (by omega) (by omega)

/-- Every character of a decimal rendering is a decimal digit character. -/
lemma toDecDigits_mem (n : Nat) : ∀ c ∈ toDecDigits n, ∃ k, k < 10 ∧ c = digitChar k := by
  induction n using Nat.strong_induction_on with
  | _ n ih =>
    by_cases h : n < 10
    · rw [toDecDigits_lt n h]
      intro c hc
      simp at hc
      exact ⟨n, h, hc⟩
    · rw [toDecDigits_ge n (by omega)]
      intro c hc
      rw [List.mem_append] at hc
      cases hc with
      | inl hc => exact ih (n / 10) (by omega) c hc
      | inr hc =>
        simp at hc
        exact ⟨n % 10, by omega, hc⟩

/-- A decimal rendering is non-empty and starts with a digit character. -/
lemma toDecDigits_cons (n : Nat) :
    ∃ k rest, k < 10 ∧ toDecDigits n = digitChar k :: rest := by
  induction n using Nat.strong_induction_on with
  | _ n ih =>
    by_cases h : n < 10
    · exact ⟨n, [], h, toDecDigits_lt n h⟩
    · obtain ⟨k, rest, hk, hr⟩ := ih (n / 10) (by omega)
      refine ⟨k, rest ++ [digitChar (n % 10)], hk, ?_⟩
      rw [toDecDigits_ge n (by omega), hr]
      rfl

/-- `digitVal` recovers the digit a `digitChar` encodes. -/
lemma digitVal_digitChar (k : Nat) (h : k < 10) : digitVal (digitChar k) = some k := by
  interval_cases k <;> decide

/-- A digit character is not the plus sign. -/
lemma digitChar_ne_plus (k : Nat) (h : k < 10) : digitChar k ≠ '+' := by
  interval_cases k <;> decide

/-- A digit character is not a comma. -/
lemma digitChar_ne_comma (k : Nat) (h : k < 10) : digitChar k ≠ ',' := by
  interval_cases k <;> decide

/-- A decimal rendering contains no comma. -/
lemma comma_not_mem_toDecDigits (n : Nat) : ',' ∉ toDecDigits n := by
  intro hc
  obtain ⟨k, hk, hck⟩ := toDecDigits_mem n ',' hc
  exact digitChar_ne_comma k hk hck.symm

/-- `parseDigits` processes a concatenation left part first, then the right
part from the accumulated value, errors short-circuiting. -/
lemma parseDigits_append : ∀ (xs ys : List Char) (acc : Nat),
    parseDigits (xs ++ ys) acc = (parseDigits xs acc).bind (fun r => parseDigits ys r) := by
  intro xs
  induction xs with
  | nil => intro ys acc; simp [parseDigits, Except.bind]
  | cons c cs ih =>
    intro ys acc
    simp only [List.cons_append, parseDigits]
    cases hd : digitVal c with
    | none => simp [Except.bind]
    | some d =>
      by_cases hov : acc * 10 + d > USIZE_MAX
      · simp [hov, Except.bind]
      · simp [hov, ih]

/-- `parseDigits` on a single digit character within range. -/
lemma parseDigits_singleton (c : Char) (d acc : Nat) (hd : digitVal c = some d)
    (hle : acc * 10 + d ≤ USIZE_MAX) : parseDigits [c] acc = .ok (acc * 10 + d) := by
  simp [parseDigits, hd, Nat.not_lt.mpr hle]

/-- Feeding a decimal rendering to the digit loop reconstructs the number on
top of the accumulator, provided the final value stays within `usize`. -/
lemma parseDigits_toDecDigits (n : Nat) : ∀ acc : Nat,
    acc * 10 ^ (toDecDigits n).length + n ≤ USIZE_MAX →
    parseDigits (toDecDigits n) acc = .ok (acc * 10 ^ (toDecDigits n).length + n) := by
  induction n using Nat.strong_induction_on with
  | _ n ih =>
    intro acc hle
    by_cases h : n < 10
    · rw [toDecDigits_lt n h] at hle ⊢
      simp only [List.length_cons, List.length_nil, pow_one] at hle ⊢
      exact parseDigits_singleton (digitChar n) n acc (digitVal_digitChar n h) hle
    · have h10 : 10 ≤ n := by omega
      rw [toDecDigits_ge n h10] at hle ⊢
      simp only [List.length_append, List.length_cons, List.length_nil] at hle ⊢
      rw [pow_succ, ← mul_assoc] at hle ⊢
      rw [parseDigits_append]
      have hq : acc * 10 ^ (toDecDigits (n / 10)).length + n / 10 ≤ USIZE_MAX := by
        generalize acc * 10 ^ (toDecDigits (n / 10)).length = A at hle ⊢
        omega
      rw [ih (n / 10) (by omega) acc hq]
      have hstep : (acc * 10 ^ (toDecDigits (n / 10)).length + n / 10) * 10 + n % 10
          ≤ USIZE_MAX := by
        generalize acc * 10 ^ (toDecDigits (n / 10)).length = A at hle ⊢
        omega
      rw [show ((Except.ok (acc * 10 ^ (toDecDigits (n / 10)).length + n / 10) :
          Except ParseIntError Nat).bind fun r => parseDigits [digitChar (n % 10)] r)
          = parseDigits [digitChar (n % 10)]
              (acc * 10 ^ (toDecDigits (n / 10)).length + n / 10) from rfl]
      rw [parseDigits_singleton (digitChar (n % 10)) (n % 10) _
        (digitVal_digitChar (n % 10) (by omega)) hstep]
      congr 1
      generalize acc * 10 ^ (toDecDigits (n / 10)).length = A
      omega

/-- Parsing the decimal rendering of any in-range number gives it back. -/
lemma parseUsize_natToString (n : Nat) (h : n ≤ USIZE_MAX) :
    parseUsize (natToString n) = .ok n := by
  obtain ⟨k, rest, hk, hr⟩ := toDecDigits_cons n
  have hdata : (natToString n).data = toDecDigits n := rfl
  unfold parseUsize
  rw [hdata, hr]
  simp only [parseUsizeCore]
  rw [if_neg (digitChar_ne_plus k hk), ← hr]
  have hmain := parseDigits_toDecDigits n 0 (by simpa using h)
  simpa using hmain

/-- Splitting a comma-free character list yields the single accumulated field. -/
lemma splitCommaAux_no_comma : ∀ (cs acc : List Char), ',' ∉ cs →
    splitCommaAux cs acc = [⟨acc.reverse ++ cs⟩] := by
  intro cs
  induction cs with
  | nil => intro acc h; simp [splitCommaAux]
  | cons c cs ih =>
    intro acc h
    simp only [List.mem_cons, not_or] at h
    obtain ⟨h1, h2⟩ := h
    simp only [splitCommaAux]
    rw [if_neg (fun hc => h1 hc.symm), ih (c :: acc) h2]
    congr 2
    simp

/-- Splitting past the first comma emits the accumulated first field and
recurses on the remainder. -/
lemma splitCommaAux_comma : ∀ (l r acc : List Char), ',' ∉ l →
    splitCommaAux (l ++ ',' :: r) acc = ⟨acc.reverse ++ l⟩ :: splitCommaAux r [] := by
  intro l
  induction l with
  | nil => intro r acc h; simp [splitCommaAux]
  | cons c l ih =>
    intro r acc h
    simp only [List.mem_cons, not_or] at h
    obtain ⟨h1, h2⟩ := h
    simp only [List.cons_append, splitCommaAux]
    rw [if_neg (fun hc => h1 hc.symm)]
    simp only [List.append_eq]
    rw [ih r (c :: acc) h2]
    congr 2
    simp

/-- Splitting `name ++ "," ++ t` yields exactly the two fields `name` and `t`
when neither contains a comma. -/
lemma splitComma_append (name t : String) (h1 : ',' ∉ name.data) (h2 : ',' ∉ t.data) :
    splitComma (name ++ "," ++ t) = [name, t] := by
  unfold splitComma
  have hdata : (name ++ "," ++ t).data = name.data ++ ',' :: t.data := by
    rw [String.data_append, String.data_append]
    simp [show (",").data = [','] from rfl]
  rw [hdata, splitCommaAux_comma name.data t.data [] h1,
    splitCommaAux_no_comma t.data [] h2]
  simp only [List.reverse_nil, List.nil_append]

/-- Claim C1 counterexample: the round-trip property fails as stated when the
name itself contains a comma — `"a,b"` is a non-empty name and `1` an
in-range age, yet parsing `"a,b" + "," + "1"` fails (with
`InsufficientParams`, since the split yields three fields). -/
theorem roundtrip_fails_on_comma_name :
    ("a,b" : String) ≠ "" ∧ (1 : Nat) ≤ USIZE_MAX ∧
    Person.from_str ("a,b" ++ "," ++ natToString 1) ≠
      Except.ok { name := "a,b", age := 1 } := by
  refine ⟨by decide, by decide, ?_⟩
  decide

/-- Claim C1 (amended): for every non-empty name containing no comma and
every age within the 64-bit `usize` range, parsing
`name ++ "," ++` the decimal rendering of `age` succeeds and returns the
record with exactly that name and age. -/
theorem roundtrip_ok_of_comma_free_name (name : String) (hne : name ≠ "")
    (hnc : ',' ∉ name.data) (age : Nat) (hage : age ≤ USIZE_MAX) :
    Person.from_str (name ++ "," ++ natToString age) =
      Except.ok { name := name, age := age } := by
  have hsplit : splitComma (name ++ "," ++ natToString age) = [name, natToString age] :=
    splitComma_append name (natToString age) hnc (comma_not_mem_toDecDigits age)
  rw [from_str_pair _ name (natToString age) hsplit]
  have hlen : ¬ name.length = 0 := fun h0 => hne (string_eq_empty name h0)
  rw [if_neg hlen, parseUsize_natToString age hage]

/-- Witness for the amended C1 at the demo input: name `"Mark"`, age `20`. -/
theorem roundtrip_ok_of_comma_free_name_witness :
    Person.from_str ("Mark" ++ "," ++ natToString 20) =
      Except.ok { name := "Mark", age := 20 } :=
  roundtrip_ok_of_comma_free_name "Mark" (by decide) (by decide) 20 (by decide)
